import Mathlib

/-
Verification of the session-continuity core of the RemoteAssistant repository.

The embedding covers:
  * `SessionManager` (src/session-manager.ts): in-memory session map with
    bounded history, durable per-user records, context construction.
  * `ClaudeExecutor.executeQuery` / `clearSession` and the `execCommand`
    helper (src/claude-executor.ts): external-process invocation outcomes,
    per-user external session handles.
  * the bot's /clear handler (src/telegram-bot.ts), which calls the
    session manager's clear and then the executor's clear.

Modelling conventions:
  * JavaScript `Map` objects become association lists (`List (String × _)`);
    `get`/`set`/`delete` become `getKey`/`setKey`/`eraseKey`.  `set` replaces
    an existing key in place, otherwise appends, matching Map insertion order.
  * The session directory becomes `List (String × FileContent)` keyed by the
    filename stem (the userId; the code always writes `${userId}.json`).
    `FileContent` models the result of `JSON.parse` on the file body:
    `.json s` is a body that parses to session `s` (the code writes bodies
    with `JSON.stringify(session)`, which this shallow model treats as the
    identity embedding of the record), `.invalid` is a body on which
    `JSON.parse` throws.
  * `Date.now()` becomes an explicit `now : Nat` argument.
  * `fs.writeFile` may reject; each mutating operation takes a `w : Bool`
    telling whether writes performed during that call succeed.  A rejected
    promise is an `Except.error`; because JavaScript mutates the session
    objects in place before the failing `await`, every operation returns the
    post-state alongside the `Except`, also on the error path.
  * `fs.unlink` gets its own `unlinkOk : Bool`; when it fails the file stays.
-/

deriving instance DecidableEq for Except

namespace RemoteAssistant

/-- Lookup in an association list (JS `Map.get`): first matching key. -/
def getKey (k : String) : List (String × α) → Option α
  | [] => none
  | (k', v) :: rest => if k' = k then some v else getKey k rest

/-- Update in an association list (JS `Map.set`): replace the first matching
key in place, else append at the end (Map insertion order). -/
def setKey (k : String) (v : α) : List (String × α) → List (String × α)
  | [] => [(k, v)]
  | (k', v') :: rest => if k' = k then (k, v) :: rest else (k', v') :: setKey k v rest

/-- Removal from an association list (JS `Map.delete`). -/
def eraseKey (k : String) : List (String × α) → List (String × α)
  | [] => []
  | (k', v) :: rest => if k' = k then eraseKey k rest else (k', v) :: eraseKey k rest

/-- JS `arr.slice(-n)` for `n > 0`: the last `n` elements of the list. -/
def takeLast (n : Nat) (l : List α) : List α := l.drop (l.length - n)

/-- JS `arr.slice(-n)` including the `n = 0` edge case: `slice(-0)` is
`slice(0)`, i.e. the whole array. -/
def jsSliceLast (n : Nat) (l : List α) : List α :=
  if n = 0 then l else takeLast n l

/-- Message role (session-manager.ts line 92): exactly two variants. -/
inductive Role where
  | user
  | assistant
deriving DecidableEq

/-- One turn-half (session-manager.ts `Message`). -/
structure Message where
  role : Role
  content : String
  timestamp : Nat
deriving DecidableEq

/-- Full conversation state for one user (session-manager.ts `Session`). -/
structure Session where
  userId : String
  messages : List Message
  createdAt : Nat
  lastActivityAt : Nat
deriving DecidableEq

/-- Result of `JSON.parse` on a stored session file body. -/
inductive FileContent where
  | json (s : Session)
  | invalid
deriving DecidableEq

/-- Is this stored body one that `JSON.parse` rejects? -/
def isCorrupt : FileContent → Bool
  | .json _ => false
  | .invalid => true

/-- The `SessionManager`'s mutable state: the in-memory `sessions` map and
the on-disk session directory. -/
structure MState where
  sessions : List (String × Session)
  disk : List (String × FileContent)
deriving DecidableEq

/-- `SessionManager.saveSession` (session-manager.ts lines 215-221): no-op if
the user has no in-memory session; otherwise `fs.writeFile` of the serialized
session, with NO try/catch — a failed write rejects to the caller. -/
def saveSession (u : String) (w : Bool) (st : MState) : Except String Unit × MState :=
  match getKey u st.sessions with
  | none => (Except.ok (), st)
  | some s =>
      if w then (Except.ok (), { st with disk := setKey u (FileContent.json s) st.disk })
      else (Except.error "EIO: write failed", st)

/-- `SessionManager.getSession` (lines 126-141): return the existing session,
or create an empty one with the current time for both timestamps, register
it, and save it (the save's rejection propagates). -/
def getSession (u : String) (now : Nat) (w : Bool) (st : MState) :
    Except String Session × MState :=
  match getKey u st.sessions with
  | some s => (Except.ok s, st)
  | none =>
      let s : Session := ⟨u, [], now, now⟩
      let st1 : MState := { st with sessions := setKey u s st.sessions }
      match saveSession u w st1 with
      | (Except.ok _, st2) => (Except.ok s, st2)
      | (Except.error e, st2) => (Except.error e, st2)

/-- `SessionManager.addMessage` (lines 146-166): fetch-or-create, push the
new message, truncate with `slice(-max)` when the length exceeds
`maxMessagesPerSession` (`maxN` here; constructor default 50), bump
`lastActivityAt`, save.  Rejections of either save propagate. -/
def addMessage (maxN : Nat) (u : String) (role : Role) (content : String)
    (now : Nat) (w : Bool) (st : MState) : Except String Unit × MState :=
  match getSession u now w st with
  | (Except.error e, st1) => (Except.error e, st1)
  | (Except.ok s, st1) =>
      let msgs1 := s.messages ++ [⟨role, content, now⟩]
      let msgs2 := if msgs1.length > maxN then jsSliceLast maxN msgs1 else msgs1
      let s' : Session := { s with messages := msgs2, lastActivityAt := now }
      saveSession u w { st1 with sessions := setKey u s' st1.sessions }

/-- `SessionManager.getHistory` (lines 171-177): all messages, or
`slice(-lastN)` when `lastN` is TRUTHY — `getHistory(u, 0)` falls through to
the all-messages branch because `0` is falsy in JavaScript. -/
def getHistory (u : String) (lastN : Option Nat) (now : Nat) (w : Bool)
    (st : MState) : Except String (List Message) × MState :=
  match getSession u now w st with
  | (Except.error e, st1) => (Except.error e, st1)
  | (Except.ok s, st1) =>
      match lastN with
      | some n => if n = 0 then (Except.ok s.messages, st1)
                  else (Except.ok (takeLast n s.messages), st1)
      | none => (Except.ok s.messages, st1)

/-- `SessionManager.clearSession` (lines 182-190): drop the in-memory entry,
then `fs.unlink` the record inside try/catch — the unlink failure (including
"file does not exist") is swallowed, so the operation always succeeds. -/
def clearSession (u : String) (unlinkOk : Bool) (st : MState) :
    Except String Unit × MState :=
  let st1 : MState := { st with sessions := eraseKey u st.sessions }
  let st2 : MState := if unlinkOk then { st1 with disk := eraseKey u st1.disk } else st1
  (Except.ok (), st2)

/-- `SessionManager.getConversationContext` (lines 195-210): render the last
`lastN` (default 10) messages; empty history yields the empty string. -/
def getConversationContext (u : String) (lastN : Nat) (now : Nat) (w : Bool)
    (st : MState) : Except String String × MState :=
  match getHistory u (some lastN) now w st with
  | (Except.error e, st1) => (Except.error e, st1)
  | (Except.ok history, st1) =>
      if history.length = 0 then (Except.ok "", st1)
      else
        let context := String.intercalate "\n\n" (history.map fun msg =>
          (if msg.role = Role.user then "User" else "Assistant") ++ ": " ++ msg.content)
        (Except.ok ("Previous conversation:\n" ++ context ++ "\n\nCurrent query:"), st1)

/-- `SessionManager.loadSessions` loop body (lines 230-238): files are read in
directory order; a parse failure throws out of the loop (the surrounding
try/catch swallows it), so entries after the first corrupt one are never
reached.  Parsed records are keyed by the `userId` stored inside the file. -/
def loadLoop : List (String × FileContent) → List (String × Session) →
    List (String × Session)
  | [], acc => acc
  | (_, FileContent.json s) :: rest, acc => loadLoop rest (setKey s.userId s acc)
  | (_, FileContent.invalid) :: _, acc => acc

/-- `SessionManager.loadSessions` (lines 226-245): when the directory is
absent, `readdir` throws and the catch leaves the map empty. -/
def loadSessions (dirExists : Bool) (files : List (String × FileContent)) :
    List (String × Session) :=
  if dirExists then loadLoop files [] else []

/-- Modelled from the spec (Session Store `loadAll`, spec section 4.2): the
behaviour the spec describes — a record that fails to parse is skipped and
loading CONTINUES for all other records.  Used only to compare against the
code's `loadSessions`. -/
def specLoadAll : List (String × FileContent) → List (String × Session) →
    List (String × Session)
  | [], acc => acc
  | (_, FileContent.json s) :: rest, acc => specLoadAll rest (setKey s.userId s acc)
  | (_, FileContent.invalid) :: rest, acc => specLoadAll rest acc

/-- `SessionManager.getStats` (lines 250-260). -/
def getStats (st : MState) : Nat × Nat :=
  (st.sessions.length, (st.sessions.map fun p => p.2.messages.length).sum)

/-- What the external process does on one invocation, as observed by
`execCommand` (claude-executor.ts lines 16-66): the process closes with an
exit code after emitting stdout/stderr, or spawning fails, or the timeout
fires first (any output gathered so far is abandoned — the timeout error
object has no stdout field). -/
inductive ProcBehavior where
  | exits (code : Int) (stdout stderr : String)
  | spawnError (msg : String)
  | timesOut (stdoutSoFar stderrSoFar : String)
deriving DecidableEq

/-- The rejection value of `execCommand`: an Error whose `stdout` field is
set only on the exit-code rejection path. -/
structure ExecError where
  message : String
  stdoutField : Option String
deriving DecidableEq

/-- `execCommand` (lines 21-65).  The close handler resolves when
`code === 0 || stdout || stderr` — i.e. a NON-zero exit still resolves as
long as some output was captured; it rejects only on a non-zero exit with
both streams empty.  Spawn errors and timeouts reject. -/
def execCommand : ProcBehavior → Except ExecError (String × String)
  | ProcBehavior.exits code out err =>
      if code = 0 ∨ out ≠ "" ∨ err ≠ "" then Except.ok (out, err)
      else Except.error ⟨"Command failed with exit code " ++ toString code, some out⟩
  | ProcBehavior.spawnError m => Except.error ⟨m, none⟩
  | ProcBehavior.timesOut _ _ =>
      Except.error ⟨"Command timed out after 300000ms", none⟩

/-- ASCII whitespace, for modelling JS `String.prototype.trim`. -/
def isJsWhitespace (c : Char) : Bool :=
  c == ' ' || c == '\t' || c == '\n' || c == '\r'

/-- JS `s.trim()`: strip leading and trailing whitespace.  (Implemented over
the character list so that it evaluates inside the kernel; JS also strips
some further Unicode whitespace, which no claim depends on.) -/
def jsTrim (s : String) : String :=
  ⟨((s.data.dropWhile isJsWhitespace).reverse.dropWhile isJsWhitespace).reverse⟩

/-- The structured result of `executeQuery` (claude-executor.ts lines 7-11). -/
structure ClaudeResponse where
  success : Bool
  output : String
  error : Option String
deriving DecidableEq

/-- `ClaudeExecutor.executeQuery` (lines 104-151).  `newId` stands for the
`crypto.randomUUID()` value generated when the user has no stored handle;
note the code stores it in `userSessionIds` BEFORE invoking the process.
On resolution it trims stdout (falling back to trimmed stderr), appends the
user and assistant turns via the session manager, and reports success; any
rejection (process failure, or a session-save failure during the appends)
lands in the catch, which reports `error.stdout || ''` and the message. -/
def executeQuery (query u newId : String) (proc : ProcBehavior) (now : Nat)
    (w : Bool) (maxN : Nat) (ids : List (String × String)) (mst : MState) :
    ClaudeResponse × List (String × String) × MState :=
  let ids1 := match getKey u ids with
    | some _ => ids
    | none => setKey u newId ids
  match execCommand proc with
  | Except.error e =>
      (⟨false, e.stdoutField.getD "", some e.message⟩, ids1, mst)
  | Except.ok (out, err) =>
      let output := if jsTrim out ≠ "" then jsTrim out else jsTrim err
      match addMessage maxN u Role.user query now w mst with
      | (Except.error e, mst1) => (⟨false, "", some e⟩, ids1, mst1)
      | (Except.ok _, mst1) =>
          match addMessage maxN u Role.assistant output now w mst1 with
          | (Except.error e, mst2) => (⟨false, "", some e⟩, ids1, mst2)
          | (Except.ok _, mst2) =>
              (⟨true,
                if output ≠ "" then output
                else if err ≠ "" then err
                else "Command executed successfully (no output)",
                none⟩, ids1, mst2)

/-- `ClaudeExecutor.clearSession` (lines 205-209): forget the stored handle. -/
def executorClearSession (u : String) (ids : List (String × String)) :
    List (String × String) :=
  eraseKey u ids

/-- The bot's /clear handler (telegram-bot.ts lines 129-141): session-manager
clear followed by executor clear. -/
def botClearSession (u : String) (unlinkOk : Bool)
    (ids : List (String × String)) (mst : MState) :
    Except String Unit × List (String × String) × MState :=
  match clearSession u unlinkOk mst with
  | (r, mst1) => (r, executorClearSession u ids, mst1)

/-- Spec rendering of one message inside the context block:
"User: content" or "Assistant: content". -/
def renderMessage (msg : Message) : String :=
  (match msg.role with
   | Role.user => "User"
   | Role.assistant => "Assistant") ++ ": " ++ msg.content

/-- The message recorded for one `addMessage` call described as
(role, content, timestamp). -/
def mkCallMessage (c : Role × String × Nat) : Message :=
  ⟨c.1, c.2.1, c.2.2⟩

/-- Run a sequence of `addMessage` calls for one user (all disk writes
succeeding), threading the manager state. -/
def runAdds (maxN : Nat) (u : String) (st : MState) :
    List (Role × String × Nat) → MState
  | [] => st
  | c :: rest => runAdds maxN u (addMessage maxN u c.1 c.2.1 c.2.2 true st).2 rest

/-- The push-then-truncate step of `addMessage` (lines 153-162), isolated for
stating lemmas. -/
def pushTrunc (maxN : Nat) (msgs : List Message) (m : Message) : List Message :=
  let msgs1 := msgs ++ [m]
  if msgs1.length > maxN then jsSliceLast maxN msgs1 else msgs1

/-- The invocation outcomes on which `execCommand` rejects: spawn error,
timeout, or a non-zero exit with BOTH captured streams empty. -/
def failureOutcome : ProcBehavior → Bool
  | ProcBehavior.exits code out err => code != 0 && out == "" && err == ""
  | ProcBehavior.spawnError _ => true
  | ProcBehavior.timesOut _ _ => true

theorem getKey_setKey_self (k : String) (v : α) (m : List (String × α)) :
    getKey k (setKey k v m) = some v := by
  induction m with
  | nil => simp [getKey, setKey]
  | cons p rest ih =>
      obtain ⟨k', v'⟩ := p
      by_cases h : k' = k
      · simp [setKey, getKey, h]
      · simp [setKey, getKey, h, ih]

theorem setKey_setKey (k : String) (v v' : α) (m : List (String × α)) :
    setKey k v' (setKey k v m) = setKey k v' m := by
  induction m with
  | nil => simp [setKey]
  | cons p rest ih =>
      obtain ⟨k', w'⟩ := p
      by_cases h : k' = k
      · simp [setKey, h]
      · simp [setKey, h, ih]

theorem getKey_eraseKey_self (k : String) (m : List (String × α)) :
    getKey k (eraseKey k m) = none := by
  induction m with
  | nil => simp [getKey, eraseKey]
  | cons p rest ih =>
      obtain ⟨k', v'⟩ := p
      by_cases h : k' = k
      · simp [eraseKey, h, ih]
      · simp [eraseKey, getKey, h, ih]

theorem length_setKey_of_none {k : String} {m : List (String × α)}
    (h : getKey k m = none) (v : α) :
    (setKey k v m).length = m.length + 1 := by
  induction m with
  | nil => simp [setKey]
  | cons p rest ih =>
      obtain ⟨k', v'⟩ := p
      by_cases hk : k' = k
      · simp [getKey, hk] at h
      · simp [getKey, hk] at h
        simp [setKey, hk, ih h]

theorem takeLast_eq_rtake (n : Nat) (l : List α) : takeLast n l = l.rtake n := rfl

theorem length_takeLast (n : Nat) (l : List α) :
    (takeLast n l).length = min n l.length := by
  simp [takeLast]
  omega

theorem takeLast_of_length_le {n : Nat} {l : List α} (h : l.length ≤ n) :
    takeLast n l = l := by
  simp [takeLast, Nat.sub_eq_zero_of_le h]

theorem takeLast_append_one (n : Nat) (l : List α) (x : α) :
    takeLast n (takeLast n l ++ [x]) = takeLast n (l ++ [x]) := by
  cases n with
  | zero =>
      simp [takeLast_eq_rtake]
  | succ m =>
      rw [takeLast_eq_rtake, takeLast_eq_rtake, takeLast_eq_rtake,
        List.rtake_concat_succ, List.rtake_concat_succ]
      congr 1
      rw [List.rtake_eq_reverse_take_reverse, List.rtake_eq_reverse_take_reverse,
        List.rtake_eq_reverse_take_reverse, List.reverse_reverse, List.take_take]
      rw [show min m (m + 1) = m by omega]

theorem getSession_of_some {u : String} {st : MState} {s : Session}
    (h : getKey u st.sessions = some s) (now : Nat) (w : Bool) :
    getSession u now w st = (Except.ok s, st) := by
  unfold getSession
  rw [h]

theorem getSession_of_none {u : String} {st : MState}
    (h : getKey u st.sessions = none) (now : Nat) :
    getSession u now true st =
      (Except.ok ⟨u, [], now, now⟩,
       ⟨setKey u ⟨u, [], now, now⟩ st.sessions,
        setKey u (FileContent.json ⟨u, [], now, now⟩) st.disk⟩) := by
  unfold getSession saveSession
  rw [h]
  simp [getKey_setKey_self]

theorem getSession_of_none_fail {u : String} {st : MState}
    (h : getKey u st.sessions = none) (now : Nat) :
    getSession u now false st =
      (Except.error "EIO: write failed",
       ⟨setKey u ⟨u, [], now, now⟩ st.sessions, st.disk⟩) := by
  unfold getSession saveSession
  rw [h]
  simp [getKey_setKey_self]

theorem addMessage_of_some {u : String} {st : MState} {s : Session}
    (h : getKey u st.sessions = some s) (maxN : Nat) (r : Role) (c : String)
    (now : Nat) :
    addMessage maxN u r c now true st =
      (Except.ok (),
       ⟨setKey u { s with messages := pushTrunc maxN s.messages ⟨r, c, now⟩,
                          lastActivityAt := now } st.sessions,
        setKey u (FileContent.json
          { s with messages := pushTrunc maxN s.messages ⟨r, c, now⟩,
                   lastActivityAt := now }) st.disk⟩) := by
  unfold addMessage
  rw [getSession_of_some h]
  unfold saveSession
  simp [getKey_setKey_self, pushTrunc]

theorem addMessage_of_some_fail {u : String} {st : MState} {s : Session}
    (h : getKey u st.sessions = some s) (maxN : Nat) (r : Role) (c : String)
    (now : Nat) :
    addMessage maxN u r c now false st =
      (Except.error "EIO: write failed",
       ⟨setKey u { s with messages := pushTrunc maxN s.messages ⟨r, c, now⟩,
                          lastActivityAt := now } st.sessions, st.disk⟩) := by
  unfold addMessage
  rw [getSession_of_some h]
  unfold saveSession
  simp [getKey_setKey_self, pushTrunc]

theorem addMessage_of_none {u : String} {st : MState}
    (h : getKey u st.sessions = none) {maxN : Nat} (hmax : 0 < maxN) (r : Role)
    (c : String) (now : Nat) :
    addMessage maxN u r c now true st =
      (Except.ok (),
       ⟨setKey u ⟨u, [⟨r, c, now⟩], now, now⟩ st.sessions,
        setKey u (FileContent.json ⟨u, [⟨r, c, now⟩], now, now⟩) st.disk⟩) := by
  unfold addMessage
  rw [getSession_of_none h]
  unfold saveSession
  simp only [List.nil_append, List.length_cons, List.length_nil]
  rw [if_neg (by omega)]
  simp [getKey_setKey_self, setKey_setKey]

theorem pushTrunc_takeLast {maxN : Nat} (hmax : 0 < maxN) (acc : List Message)
    (m : Message) :
    pushTrunc maxN (takeLast maxN acc) m = takeLast maxN (acc ++ [m]) := by
  unfold pushTrunc
  by_cases h : maxN ≤ acc.length
  · have hlen : (takeLast maxN acc ++ [m]).length = maxN + 1 := by
      rw [List.length_append, length_takeLast]
      simp
      omega
    rw [if_pos (by omega)]
    unfold jsSliceLast
    rw [if_neg (by omega)]
    exact takeLast_append_one maxN acc m
  · have hacc : takeLast maxN acc = acc := takeLast_of_length_le (by omega)
    rw [hacc]
    have hlen : (acc ++ [m]).length = acc.length + 1 := by simp
    rw [if_neg (by omega)]
    exact (takeLast_of_length_le (by omega)).symm

theorem runAdds_inv {maxN : Nat} (hmax : 0 < maxN) (u : String) :
    ∀ (calls : List (Role × String × Nat)) (st : MState) (s : Session)
      (acc : List Message),
      getKey u st.sessions = some s → s.messages = takeLast maxN acc →
      ∃ s', getKey u (runAdds maxN u st calls).sessions = some s' ∧
        s'.messages = takeLast maxN (acc ++ calls.map mkCallMessage) := by
  intro calls
  induction calls with
  | nil =>
      intro st s acc h hm
      exact ⟨s, by simpa [runAdds] using h, by simpa using hm⟩
  | cons c rest ih =>
      intro st s acc h hm
      unfold runAdds
      rw [addMessage_of_some h maxN c.1 c.2.1 c.2.2]
      obtain ⟨s', h1, h2⟩ := ih
        ⟨setKey u { s with messages := pushTrunc maxN s.messages ⟨c.1, c.2.1, c.2.2⟩,
                           lastActivityAt := c.2.2 } st.sessions,
         setKey u (FileContent.json
           { s with messages := pushTrunc maxN s.messages ⟨c.1, c.2.1, c.2.2⟩,
                    lastActivityAt := c.2.2 }) st.disk⟩
        { s with messages := pushTrunc maxN s.messages ⟨c.1, c.2.1, c.2.2⟩,
                 lastActivityAt := c.2.2 }
        (acc ++ [⟨c.1, c.2.1, c.2.2⟩])
        (getKey_setKey_self u _ _)
        (by rw [hm]; exact pushTrunc_takeLast hmax acc _)
      refine ⟨s', h1, ?_⟩
      rw [h2]
      simp [mkCallMessage]

/-- C1: for every sequence of `addMessage` calls on one userId (with a
positive configured bound `maxN`; the constructor default is 50), the
resulting session's message list is exactly the most recent `maxN` of the
appended messages in original relative order — in particular its length is
at most `maxN`.  Quantifying over all call sequences covers the state after
each individual call. -/
theorem C1_bounded_history (maxN : Nat) (u : String)
    (calls : List (Role × String × Nat)) (hmax : 0 < maxN)
    (hne : calls ≠ []) :
    ∃ s, getKey u (runAdds maxN u ⟨[], []⟩ calls).sessions = some s ∧
      s.messages = takeLast maxN (calls.map mkCallMessage) ∧
      s.messages.length ≤ maxN := by
  cases calls with
  | nil => exact absurd rfl hne
  | cons c rest =>
      unfold runAdds
      rw [addMessage_of_none (show getKey u ([] : List (String × Session)) = none from rfl)
        hmax c.1 c.2.1 c.2.2]
      obtain ⟨s', h1, h2⟩ := runAdds_inv hmax u rest
        ⟨setKey u ⟨u, [⟨c.1, c.2.1, c.2.2⟩], c.2.2, c.2.2⟩ [],
         setKey u (FileContent.json ⟨u, [⟨c.1, c.2.1, c.2.2⟩], c.2.2, c.2.2⟩) []⟩
        ⟨u, [⟨c.1, c.2.1, c.2.2⟩], c.2.2, c.2.2⟩
        [⟨c.1, c.2.1, c.2.2⟩]
        (getKey_setKey_self u _ _)
        (takeLast_of_length_le (by simp; omega)).symm
      refine ⟨s', h1, ?_, ?_⟩
      · rw [h2]
        simp [mkCallMessage]
      · rw [h2, length_takeLast]
        omega

/-- C1 witness: Scenario A of the spec — bound 3, four appends; the retained
history is the three most recent messages. -/
theorem C1_bounded_history_witness :
    (0 < 3 ∧
      ([(Role.user, "a", 1), (Role.assistant, "b", 2), (Role.user, "c", 3),
        (Role.assistant, "d", 4)] : List (Role × String × Nat)) ≠ []) ∧
    ∃ s, getKey "u" (runAdds 3 "u" ⟨[], []⟩
        [(Role.user, "a", 1), (Role.assistant, "b", 2), (Role.user, "c", 3),
         (Role.assistant, "d", 4)]).sessions = some s ∧
      s.messages = takeLast 3 ([(Role.user, "a", 1), (Role.assistant, "b", 2),
        (Role.user, "c", 3), (Role.assistant, "d", 4)].map mkCallMessage) ∧
      s.messages.length ≤ 3 :=
  ⟨⟨by decide, by decide⟩,
   C1_bounded_history 3 "u"
     [(Role.user, "a", 1), (Role.assistant, "b", 2), (Role.user, "c", 3),
      (Role.assistant, "d", 4)] (by decide) (by decide)⟩

/-- C2 counterexample: the external process exits with code 1 but printed
"oops" on stdout; `execCommand`'s close handler resolves because
`code === 0 || stdout || stderr` is satisfied, so `executeQuery` reports
success AND appends both turn-halves to the session history — the claim
says a non-zero exit must yield `success = false` with the history
unchanged. -/
theorem C2_counterexample :
    (executeQuery "q" "u" "n1" (ProcBehavior.exits 1 "oops" "") 3 true 50 []
        ⟨[], []⟩).1 = ⟨true, "oops", none⟩ ∧
    (getStats (executeQuery "q" "u" "n1" (ProcBehavior.exits 1 "oops" "") 3 true
        50 [] ⟨[], []⟩).2.2).2 = 2 := by
  constructor
  · decide
  · decide

/-- C2 amended: only a spawn error, a timeout, or a non-zero exit with BOTH
captured stdout and stderr empty reject; in exactly those cases the caller
receives a failure result (`success = false`) with an error description and
the stdout recorded on the error (which is empty on all reject paths), and
the conversational turn is not appended — the session-manager state is
unchanged.  A non-zero exit with non-empty output is instead treated as
success and the turn IS appended. -/
theorem C2_failure_result_history_unchanged (q u nid : String)
    (proc : ProcBehavior) (now : Nat) (w : Bool) (maxN : Nat)
    (ids : List (String × String)) (mst : MState)
    (h : failureOutcome proc = true) :
    (executeQuery q u nid proc now w maxN ids mst).1.success = false ∧
    (executeQuery q u nid proc now w maxN ids mst).1.output = "" ∧
    (executeQuery q u nid proc now w maxN ids mst).1.error.isSome = true ∧
    (executeQuery q u nid proc now w maxN ids mst).2.2 = mst := by
  cases proc with
  | exits code out err =>
      simp only [failureOutcome, Bool.and_eq_true, bne_iff_ne, beq_iff_eq] at h
      obtain ⟨⟨h1, h2⟩, h3⟩ := h
      subst h2
      subst h3
      unfold executeQuery execCommand
      simp [h1]
  | spawnError m =>
      unfold executeQuery execCommand
      simp
  | timesOut a b =>
      unfold executeQuery execCommand
      simp

/-- C2 witness: a spawn error with an already-known handle; the failure
result carries the message and the history is untouched. -/
theorem C2_failure_result_history_unchanged_witness :
    failureOutcome (ProcBehavior.spawnError "spawn claude ENOENT") = true ∧
    ((executeQuery "q" "u" "n1" (ProcBehavior.spawnError "spawn claude ENOENT")
        3 true 50 [] ⟨[], []⟩).1.success = false ∧
     (executeQuery "q" "u" "n1" (ProcBehavior.spawnError "spawn claude ENOENT")
        3 true 50 [] ⟨[], []⟩).1.output = "" ∧
     (executeQuery "q" "u" "n1" (ProcBehavior.spawnError "spawn claude ENOENT")
        3 true 50 [] ⟨[], []⟩).1.error.isSome = true ∧
     (executeQuery "q" "u" "n1" (ProcBehavior.spawnError "spawn claude ENOENT")
        3 true 50 [] ⟨[], []⟩).2.2 = ⟨[], []⟩) :=
  ⟨by decide,
   C2_failure_result_history_unchanged "q" "u" "n1"
     (ProcBehavior.spawnError "spawn claude ENOENT") 3 true 50 [] ⟨[], []⟩
     (by decide)⟩

/-- C3 counterexample: `saveSession` wraps `fs.writeFile` in no try/catch, so
when the durable write fails, `addMessage` rejects to its caller instead of
swallowing the storage failure — the claim says no mutating operation ever
raises because of storage failure. -/
theorem C3_counterexample :
    (addMessage 50 "u" Role.user "hi" 1 false
        ⟨[("u", ⟨"u", [], 0, 0⟩)], [("u", FileContent.json ⟨"u", [], 0, 0⟩)]⟩).1 =
      Except.error "EIO: write failed" := by
  decide

/-- C3 amended: `clearSession` does swallow its durable-store failure (the
unlink sits in try/catch, so clear never raises), but a failed write of the
session file inside `getSession`/`addMessage` propagates the storage error
to the caller; the in-memory session remains mutated and usable — the
message pushed by `addMessage` is still in the in-memory map after the
failed save. -/
theorem C3_clear_swallows_save_raises (u : String) (st : MState) (s : Session)
    (r : Role) (c : String) (now : Nat)
    (h : getKey u st.sessions = some s) (hlen : s.messages.length < 50) :
    (∀ (u' : String) (st' : MState) (ok' : Bool),
      (clearSession u' ok' st').1 = Except.ok ()) ∧
    (addMessage 50 u r c now false st).1 = Except.error "EIO: write failed" ∧
    ∃ s', getKey u (addMessage 50 u r c now false st).2.sessions = some s' ∧
      s'.messages = s.messages ++ [⟨r, c, now⟩] := by
  refine ⟨fun u' st' ok' => rfl, ?_, ?_⟩
  · rw [addMessage_of_some_fail h]
  · rw [addMessage_of_some_fail h]
    refine ⟨_, getKey_setKey_self u _ _, ?_⟩
    show pushTrunc 50 s.messages ⟨r, c, now⟩ = s.messages ++ [⟨r, c, now⟩]
    unfold pushTrunc
    rw [if_neg (by simp; omega)]

/-- C3 witness: a one-session state with a failing disk; `addMessage` raises
while the in-memory history still gains the message. -/
theorem C3_clear_swallows_save_raises_witness :
    (getKey "w" (MState.mk [("w", ⟨"w", [], 0, 0⟩)] []).sessions =
        some ⟨"w", [], 0, 0⟩ ∧
      ([] : List Message).length < 50) ∧
    ((∀ (u' : String) (st' : MState) (ok' : Bool),
        (clearSession u' ok' st').1 = Except.ok ()) ∧
     (addMessage 50 "w" Role.user "ping" 7 false
        ⟨[("w", ⟨"w", [], 0, 0⟩)], []⟩).1 = Except.error "EIO: write failed" ∧
     ∃ s', getKey "w" (addMessage 50 "w" Role.user "ping" 7 false
        ⟨[("w", ⟨"w", [], 0, 0⟩)], []⟩).2.sessions = some s' ∧
       s'.messages = ([] : List Message) ++ [⟨Role.user, "ping", 7⟩]) :=
  ⟨⟨by decide, by decide⟩,
   C3_clear_swallows_save_raises "w" ⟨[("w", ⟨"w", [], 0, 0⟩)], []⟩
     ⟨"w", [], 0, 0⟩ Role.user "ping" 7 (by decide) (by decide)⟩

theorem loadLoop_eq_specLoadAll :
    ∀ (files : List (String × FileContent)) (acc : List (String × Session)),
      loadLoop files acc =
        specLoadAll (files.takeWhile fun f => ! isCorrupt f.2) acc := by
  intro files
  induction files with
  | nil => intro acc; rfl
  | cons f rest ih =>
      intro acc
      obtain ⟨name, content⟩ := f
      cases content with
      | json s => simp [loadLoop, List.takeWhile_cons, isCorrupt, specLoadAll, ih]
      | invalid => simp [loadLoop, List.takeWhile_cons, isCorrupt, specLoadAll]

/-- C4 counterexample: three stored records in directory order, the middle
one corrupt; the try/catch in `loadSessions` wraps the WHOLE loop, so the
parse failure aborts loading and the perfectly parseable third record never
reaches the in-memory mapping — the claim says every parseable record is
still loaded. -/
theorem C4_counterexample :
    loadSessions true
        [("a", FileContent.json ⟨"a", [], 0, 0⟩), ("b", FileContent.invalid),
         ("c", FileContent.json ⟨"c", [], 0, 0⟩)] =
      [("a", ⟨"a", [], 0, 0⟩)] ∧
    getKey "c" (loadSessions true
        [("a", FileContent.json ⟨"a", [], 0, 0⟩), ("b", FileContent.invalid),
         ("c", FileContent.json ⟨"c", [], 0, 0⟩)]) = none ∧
    isCorrupt (FileContent.json ⟨"c", [], 0, 0⟩) = false := by
  refine ⟨by decide, by decide, by decide⟩

/-- C4 amended: a record that fails to parse causes startup loading to STOP:
records earlier in directory order are in the mapping, every record after the
first corrupt one is skipped; the failure is swallowed (no process-level
failure — `loadSessions` is total and equals the spec's skip-and-continue
loader applied to the prefix before the first corrupt record), and an absent
or empty storage location yields an empty mapping. -/
theorem C4_load_stops_at_first_corrupt (files : List (String × FileContent)) :
    loadSessions true files =
      specLoadAll (files.takeWhile fun f => ! isCorrupt f.2) [] ∧
    loadSessions false files = [] ∧
    loadSessions true [] = [] := by
  refine ⟨?_, rfl, rfl⟩
  show loadLoop files [] = _
  exact loadLoop_eq_specLoadAll files []

theorem strAppend_assoc (a b c : String) : a ++ b ++ c = a ++ (b ++ c) := by
  apply String.ext
  simp [String.data_append]

theorem strSplitHeader (x : String) :
    ("Previous conversation:\n" : String) ++ x =
      "Previous conversation:" ++ ("\n" ++ x) := by
  apply String.ext
  simp only [String.data_append]
  rw [← List.append_assoc]
  congr 1

theorem strSplitTrailer (x : String) :
    x ++ ("\n\nCurrent query:" : String) = (x ++ "\n\n") ++ "Current query:" := by
  apply String.ext
  simp only [String.data_append]
  rw [List.append_assoc]
  congr 1

theorem renderMessage_eq (msg : Message) :
    ((if msg.role = Role.user then "User" else "Assistant") ++ ": " ++ msg.content) =
      renderMessage msg := by
  cases h : msg.role <;> simp [renderMessage, h]

/-- C5: `getConversationContext` on an existing session returns the empty
string when the session has no messages; otherwise it returns exactly the
header `"Previous conversation:"`, a newline, the selected (most recent 10)
messages rendered `"User: <content>"` / `"Assistant: <content>"` in
oldest-first order joined by the blank-line separator `"\n\n"`, and the
trailer `"\n\nCurrent query:"` — so the result begins with
`"Previous conversation:"` and ends with `"Current query:"`. -/
theorem C5_context_format (u : String) (s : Session)
    (d : List (String × FileContent)) (now : Nat) (w : Bool) :
    (getConversationContext u 10 now w ⟨[(u, s)], d⟩).1 =
      Except.ok (if s.messages.isEmpty then "" else
        "Previous conversation:\n" ++
          String.intercalate "\n\n" ((takeLast 10 s.messages).map renderMessage) ++
          "\n\nCurrent query:") ∧
    (¬ s.messages.isEmpty →
      (∃ t, (getConversationContext u 10 now w ⟨[(u, s)], d⟩).1 =
        Except.ok ("Previous conversation:" ++ t)) ∧
      (∃ t', (getConversationContext u 10 now w ⟨[(u, s)], d⟩).1 =
        Except.ok (t' ++ "Current query:"))) := by
  have hk : getKey u (MState.mk [(u, s)] d).sessions = some s := by
    simp [getKey]
  have hh : getHistory u (some 10) now w ⟨[(u, s)], d⟩ =
      (Except.ok (takeLast 10 s.messages), ⟨[(u, s)], d⟩) := by
    unfold getHistory
    rw [getSession_of_some hk]
    simp
  have hmap : (takeLast 10 s.messages).map (fun msg =>
        (if msg.role = Role.user then "User" else "Assistant") ++ ": " ++ msg.content) =
      (takeLast 10 s.messages).map renderMessage := by
    exact List.map_congr_left fun msg _ => renderMessage_eq msg
  by_cases he : s.messages = []
  · have : (getConversationContext u 10 now w ⟨[(u, s)], d⟩).1 = Except.ok "" := by
      unfold getConversationContext
      rw [hh]
      simp [he, takeLast]
    rw [this]
    refine ⟨by simp [he], fun hne => absurd (by simp [he]) hne⟩
  · have hne : (takeLast 10 s.messages).length ≠ 0 := by
      rw [length_takeLast]
      have : s.messages.length ≠ 0 := fun hc => he (List.length_eq_zero.mp hc)
      omega
    have hmain : (getConversationContext u 10 now w ⟨[(u, s)], d⟩).1 =
        Except.ok ("Previous conversation:\n" ++
          String.intercalate "\n\n" ((takeLast 10 s.messages).map renderMessage) ++
          "\n\nCurrent query:") := by
      unfold getConversationContext
      rw [hh]
      simp only [hmap]
      rw [if_neg hne]
    refine ⟨?_, fun _ => ⟨?_, ?_⟩⟩
    · rw [hmain, if_neg (by simpa [List.isEmpty_iff] using he)]
    · refine ⟨"\n" ++
        String.intercalate "\n\n" ((takeLast 10 s.messages).map renderMessage) ++
        "\n\nCurrent query:", ?_⟩
      rw [hmain, strAppend_assoc, strSplitHeader, strAppend_assoc]
    · refine ⟨"Previous conversation:\n" ++
        String.intercalate "\n\n" ((takeLast 10 s.messages).map renderMessage) ++
        "\n\n", ?_⟩
      rw [hmain, strSplitTrailer]

/-- C5 witness: a two-message session renders with header, both turns, the
blank-line separator, and the trailer; prefix and suffix forms hold. -/
theorem C5_context_format_witness :
    ((getConversationContext "u" 10 5 true
        ⟨[("u", ⟨"u", [⟨Role.user, "hi", 1⟩, ⟨Role.assistant, "yo", 2⟩], 0, 2⟩)],
         []⟩).1 =
      Except.ok (if ([⟨Role.user, "hi", 1⟩, ⟨Role.assistant, "yo", 2⟩] :
          List Message).isEmpty then "" else
        "Previous conversation:\n" ++
          String.intercalate "\n\n"
            ((takeLast 10 [⟨Role.user, "hi", 1⟩, ⟨Role.assistant, "yo", 2⟩]).map
              renderMessage) ++
          "\n\nCurrent query:") ∧
    (¬ ([⟨Role.user, "hi", 1⟩, ⟨Role.assistant, "yo", 2⟩] :
        List Message).isEmpty →
      (∃ t, (getConversationContext "u" 10 5 true
          ⟨[("u", ⟨"u", [⟨Role.user, "hi", 1⟩, ⟨Role.assistant, "yo", 2⟩], 0, 2⟩)],
           []⟩).1 = Except.ok ("Previous conversation:" ++ t)) ∧
      (∃ t', (getConversationContext "u" 10 5 true
          ⟨[("u", ⟨"u", [⟨Role.user, "hi", 1⟩, ⟨Role.assistant, "yo", 2⟩], 0, 2⟩)],
           []⟩).1 = Except.ok (t' ++ "Current query:")))) :=
  C5_context_format "u" ⟨"u", [⟨Role.user, "hi", 1⟩, ⟨Role.assistant, "yo", 2⟩], 0, 2⟩
    [] 5 true

/-- C6 counterexample: a user in the Fresh state (no stored handle) issues a
query whose spawn fails; because `executeQuery` stores the freshly generated
UUID in `userSessionIds` BEFORE invoking the process, the user holds a
handle after the failed invocation — the claim says a Fresh user still holds
no handle after a failure. -/
theorem C6_counterexample :
    getKey "u" (executeQuery "q" "u" "fresh-id"
        (ProcBehavior.spawnError "spawn claude ENOENT") 3 true 50 []
        ⟨[], []⟩).2.1 = some "fresh-id" := by
  decide

/-- C6 amended: on a failed invocation, a user who already held an external
handle keeps that same handle for retry; a user who was Fresh ends up
holding the newly generated handle (it is stored before the process runs),
not the empty state. -/
theorem C6_failure_handle_state (q u nid : String) (proc : ProcBehavior)
    (now : Nat) (w : Bool) (maxN : Nat) (ids : List (String × String))
    (mst : MState) (h : failureOutcome proc = true) :
    (∀ hdl, getKey u ids = some hdl →
      getKey u (executeQuery q u nid proc now w maxN ids mst).2.1 = some hdl) ∧
    (getKey u ids = none →
      getKey u (executeQuery q u nid proc now w maxN ids mst).2.1 = some nid) := by
  have hids : ∀ e : ExecError, execCommand proc = Except.error e →
      (executeQuery q u nid proc now w maxN ids mst).2.1 =
        (match getKey u ids with
          | some _ => ids
          | none => setKey u nid ids) := by
    intro e he
    unfold executeQuery
    rw [he]
  have hfail : ∃ e : ExecError, execCommand proc = Except.error e := by
    cases proc with
    | exits code out err =>
        simp only [failureOutcome, Bool.and_eq_true, bne_iff_ne, beq_iff_eq] at h
        obtain ⟨⟨h1, h2⟩, h3⟩ := h
        subst h2
        subst h3
        exact ⟨⟨"Command failed with exit code " ++ toString code, some ""⟩,
          by unfold execCommand; simp [h1]⟩
    | spawnError m => exact ⟨⟨m, none⟩, rfl⟩
    | timesOut a b => exact ⟨⟨"Command timed out after 300000ms", none⟩, rfl⟩
  obtain ⟨e, he⟩ := hfail
  constructor
  · intro hdl hsome
    rw [hids e he, hsome]
    exact hsome
  · intro hnone
    rw [hids e he, hnone]
    exact getKey_setKey_self u nid ids

/-- C6 witness: timeout with one user already holding a handle and the
Fresh-user branch exercised on the stored-before-run handle. -/
theorem C6_failure_handle_state_witness :
    failureOutcome (ProcBehavior.timesOut "half" "") = true ∧
    ((∀ hdl, getKey "u" [("u", "h0")] = some hdl →
        getKey "u" (executeQuery "q" "u" "n2" (ProcBehavior.timesOut "half" "")
          4 true 50 [("u", "h0")] ⟨[], []⟩).2.1 = some hdl) ∧
     (getKey "u" [("u", "h0")] = none →
        getKey "u" (executeQuery "q" "u" "n2" (ProcBehavior.timesOut "half" "")
          4 true 50 [("u", "h0")] ⟨[], []⟩).2.1 = some "n2")) :=
  ⟨by decide,
   C6_failure_handle_state "q" "u" "n2" (ProcBehavior.timesOut "half" "") 4 true
     50 [("u", "h0")] ⟨[], []⟩ (by decide)⟩

/-- C7: saving a session and then loading from the resulting disk (a restart
with an empty in-memory map) reproduces the session exactly — userId, the
whole message sequence (role, content and timestamp of every message, in
order), createdAt and lastActivityAt — since the loaded mapping holds the
very same `Session` value. -/
theorem C7_save_load_roundtrip (s : Session) :
    loadSessions true ((saveSession s.userId true ⟨[(s.userId, s)], []⟩).2.disk) =
      [(s.userId, s)] ∧
    getKey s.userId
      (loadSessions true
        ((saveSession s.userId true ⟨[(s.userId, s)], []⟩).2.disk)) = some s := by
  have h1 : (saveSession s.userId true ⟨[(s.userId, s)], []⟩).2.disk =
      [(s.userId, FileContent.json s)] := by
    simp [saveSession, getKey, setKey]
  rw [h1]
  constructor
  · simp [loadSessions, loadLoop, setKey]
  · simp [loadSessions, loadLoop, setKey, getKey]

/-- C8: the /clear flow (session-manager clear + executor clear) removes the
in-memory session, deletes the durable record, and deletes the stored
external handle — both continuity mechanisms invalidated together; a
subsequent `getSession` yields a fresh empty session whose two timestamps
are the current time; and clearing is never an error in any state (so a
second consecutive clear, or clearing when nothing exists, also succeeds). -/
theorem C8_clear_both_mechanisms (u : String) (ids : List (String × String))
    (mst : MState) (now : Nat) :
    (botClearSession u true ids mst).1 = Except.ok () ∧
    getKey u (botClearSession u true ids mst).2.2.sessions = none ∧
    getKey u (botClearSession u true ids mst).2.2.disk = none ∧
    getKey u (botClearSession u true ids mst).2.1 = none ∧
    (getSession u now true (botClearSession u true ids mst).2.2).1 =
      Except.ok ⟨u, [], now, now⟩ ∧
    (∀ (ids' : List (String × String)) (mst' : MState) (ok' : Bool),
      (botClearSession u ok' ids' mst').1 = Except.ok ()) := by
  have hstate : (botClearSession u true ids mst).2.2 =
      ⟨eraseKey u mst.sessions, eraseKey u mst.disk⟩ := by
    simp [botClearSession, clearSession, executorClearSession]
  have hids : (botClearSession u true ids mst).2.1 = eraseKey u ids := by
    simp [botClearSession, clearSession, executorClearSession]
  refine ⟨rfl, ?_, ?_, ?_, ?_, ?_⟩
  · rw [hstate]
    exact getKey_eraseKey_self u mst.sessions
  · rw [hstate]
    exact getKey_eraseKey_self u mst.disk
  · rw [hids]
    exact getKey_eraseKey_self u ids
  · rw [hstate]
    rw [getSession_of_none (getKey_eraseKey_self u mst.sessions) now]
  · intro ids' mst' ok'
    rfl

/-- C9: `getHistory(userId, 0)` behaves exactly like `getHistory(userId)`
with the argument omitted — the `if (lastN)` truthiness test treats 0 as
absent — and on an existing session it returns ALL stored messages, not the
empty sequence. -/
theorem C9_history_lastn_zero (st : MState) (u : String) (now : Nat) (w : Bool) :
    getHistory u (some 0) now w st = getHistory u none now w st ∧
    (∀ s, getKey u st.sessions = some s →
      (getHistory u (some 0) now w st).1 = Except.ok s.messages) := by
  constructor
  · unfold getHistory
    rcases hgs : getSession u now w st with ⟨r, st1⟩
    cases r with
    | error e => simp
    | ok s => simp
  · intro s hs
    unfold getHistory
    rw [getSession_of_some hs]
    simp

/-- C9 witness: a one-message session; `getHistory` with `lastN = 0` returns
the full message list. -/
theorem C9_history_lastn_zero_witness :
    (getHistory "u" (some 0) 5 true
        ⟨[("u", ⟨"u", [⟨Role.user, "hi", 1⟩], 0, 1⟩)], []⟩ =
      getHistory "u" none 5 true
        ⟨[("u", ⟨"u", [⟨Role.user, "hi", 1⟩], 0, 1⟩)], []⟩) ∧
    (∀ s, getKey "u" (MState.mk [("u", ⟨"u", [⟨Role.user, "hi", 1⟩], 0, 1⟩)]
        []).sessions = some s →
      (getHistory "u" (some 0) 5 true
        ⟨[("u", ⟨"u", [⟨Role.user, "hi", 1⟩], 0, 1⟩)], []⟩).1 =
          Except.ok s.messages) :=
  C9_history_lastn_zero ⟨[("u", ⟨"u", [⟨Role.user, "hi", 1⟩], 0, 1⟩)], []⟩ "u" 5 true

/-- C10: invoked for a userId with no session, the read-style operations
`getHistory` and `getConversationContext` each create a fresh empty session,
register it in the in-memory map, and write its durable record — so
`getStats`'s totalSessions grows by one as a consequence of a pure read. -/
theorem C10_reads_create_sessions (st : MState) (u : String) (now : Nat)
    (lastN : Option Nat) (h : getKey u st.sessions = none) :
    (getHistory u lastN now true st).1 = Except.ok [] ∧
    getKey u (getHistory u lastN now true st).2.sessions =
      some ⟨u, [], now, now⟩ ∧
    getKey u (getHistory u lastN now true st).2.disk =
      some (FileContent.json ⟨u, [], now, now⟩) ∧
    (getStats (getHistory u lastN now true st).2).1 = (getStats st).1 + 1 ∧
    (getConversationContext u 10 now true st).1 = Except.ok "" ∧
    getKey u (getConversationContext u 10 now true st).2.sessions =
      some ⟨u, [], now, now⟩ ∧
    getKey u (getConversationContext u 10 now true st).2.disk =
      some (FileContent.json ⟨u, [], now, now⟩) ∧
    (getStats (getConversationContext u 10 now true st).2).1 =
      (getStats st).1 + 1 := by
  have hmsgs : ∀ n : Nat, takeLast n ([] : List Message) = [] := by
    intro n
    simp [takeLast]
  have hh : getHistory u lastN now true st =
      (Except.ok [],
       ⟨setKey u ⟨u, [], now, now⟩ st.sessions,
        setKey u (FileContent.json ⟨u, [], now, now⟩) st.disk⟩) := by
    unfold getHistory
    rw [getSession_of_none h now]
    cases lastN with
    | none => rfl
    | some n =>
        by_cases hn : n = 0
        · simp [hn]
        · simp [hn, hmsgs]
  have hc : getConversationContext u 10 now true st =
      (Except.ok "",
       ⟨setKey u ⟨u, [], now, now⟩ st.sessions,
        setKey u (FileContent.json ⟨u, [], now, now⟩) st.disk⟩) := by
    unfold getConversationContext getHistory
    rw [getSession_of_none h now]
    simp [hmsgs]
  rw [hh, hc]
  refine ⟨rfl, getKey_setKey_self u _ _, getKey_setKey_self u _ _, ?_, rfl,
    getKey_setKey_self u _ _, getKey_setKey_self u _ _, ?_⟩
  · show (setKey u ⟨u, [], now, now⟩ st.sessions).length = st.sessions.length + 1
    exact length_setKey_of_none h _
  · show (setKey u ⟨u, [], now, now⟩ st.sessions).length = st.sessions.length + 1
    exact length_setKey_of_none h _

/-- C10 witness: an empty manager; a `getHistory` read registers a session
and bumps totalSessions from 0 to 1, and so does `getConversationContext`. -/
theorem C10_reads_create_sessions_witness :
    getKey "u" (MState.mk [] []).sessions = none ∧
    ((getHistory "u" none 5 true ⟨[], []⟩).1 = Except.ok [] ∧
     getKey "u" (getHistory "u" none 5 true ⟨[], []⟩).2.sessions =
       some ⟨"u", [], 5, 5⟩ ∧
     getKey "u" (getHistory "u" none 5 true ⟨[], []⟩).2.disk =
       some (FileContent.json ⟨"u", [], 5, 5⟩) ∧
     (getStats (getHistory "u" none 5 true ⟨[], []⟩).2).1 =
       (getStats ⟨[], []⟩).1 + 1 ∧
     (getConversationContext "u" 10 5 true ⟨[], []⟩).1 = Except.ok "" ∧
     getKey "u" (getConversationContext "u" 10 5 true ⟨[], []⟩).2.sessions =
       some ⟨"u", [], 5, 5⟩ ∧
     getKey "u" (getConversationContext "u" 10 5 true ⟨[], []⟩).2.disk =
       some (FileContent.json ⟨"u", [], 5, 5⟩) ∧
     (getStats (getConversationContext "u" 10 5 true ⟨[], []⟩).2).1 =
       (getStats ⟨[], []⟩).1 + 1) :=
  ⟨by decide, C10_reads_create_sessions ⟨[], []⟩ "u" 5 none (by decide)⟩

end RemoteAssistant
